import Mathlib

/-!
Verification of the buckshot multi-agent engine: output parsers,
session lifecycle, round orchestration, dispatch and convergence.

Go machine integers are modelled as `Int`, Go `float64` context-usage
fractions as `Rat` (the values that occur are of the form n/100, where
the claims only compare and order them), Go `error` values as
`Option String` (`none` = nil error), and `encoding/json` decoding of a
byte slice into `map[string]interface{}` as `jsonUnmarshalObject` below.
-/

/-! ### Go string helpers -/

/-- Unicode white space per Go `unicode.IsSpace` (the White_Space property). -/
def goIsSpace (c : Char) : Bool :=
  c.toNat = 9 || c.toNat = 10 || c.toNat = 11 || c.toNat = 12 || c.toNat = 13 ||
  c.toNat = 32 || c.toNat = 0x85 || c.toNat = 0xA0 || c.toNat = 0x1680 ||
  (0x2000 ≤ c.toNat && c.toNat ≤ 0x200A) || c.toNat = 0x2028 || c.toNat = 0x2029 ||
  c.toNat = 0x202F || c.toNat = 0x205F || c.toNat = 0x3000

/-- Go `strings.TrimSpace`: drop leading and trailing Unicode white space. -/
def goTrimSpace (s : String) : String :=
  String.mk (((s.data.dropWhile goIsSpace).reverse.dropWhile goIsSpace).reverse)

/-- Go `strings.HasPrefix`. -/
def goStartsWith (s pre : String) : Bool := pre.data.isPrefixOf s.data

/-- Character-level split at newlines (`strings.Split(s, "\n")`). -/
def splitLinesChar : List Char → List (List Char)
  | [] => [[]]
  | c :: rest =>
    if c == '\n' then [] :: splitLinesChar rest
    else
      match splitLinesChar rest with
      | l :: ls => (c :: l) :: ls
      | [] => [[c]]

/-- Go `strings.Split(s, "\n")`. -/
def goSplitNewline (s : String) : List String := (splitLinesChar s.data).map String.mk

/-! ### JSON values and `encoding/json` decoding

`JValue` models the result of decoding JSON into `interface{}`: object
fields are kept in source order (a duplicated key is resolved to its last
occurrence by `lookupField`, matching Go map insertion), and numbers keep
their lexeme (the engine never reads a numeric value, only performs type
assertions, so the numeric payload is irrelevant). -/

inductive JValue where
  | null : JValue
  | bool (b : Bool) : JValue
  | num (lexeme : String) : JValue
  | str (s : String) : JValue
  | arr (elems : List JValue) : JValue
  | obj (fields : List (String × JValue)) : JValue
deriving Repr, Inhabited

/-- JSON structural white space (space, tab, newline, carriage return). -/
def isJsonWs (c : Char) : Bool :=
  c.toNat = 32 || c.toNat = 9 || c.toNat = 10 || c.toNat = 13

def skipWs (cs : List Char) : List Char := cs.dropWhile isJsonWs

def isDigitChar (c : Char) : Bool := '0' ≤ c && c ≤ '9'

def hexVal (c : Char) : Option Nat :=
  if '0' ≤ c ∧ c ≤ '9' then some (c.toNat - 48)
  else if 'a' ≤ c ∧ c ≤ 'f' then some (c.toNat - 87)
  else if 'A' ≤ c ∧ c ≤ 'F' then some (c.toNat - 55)
  else none

def hex4 (a b c d : Char) : Option Nat :=
  match hexVal a, hexVal b, hexVal c, hexVal d with
  | some x, some y, some z, some w => some (4096 * x + 256 * y + 16 * z + w)
  | _, _, _, _ => none

/-- Single-character string escapes accepted by the Go JSON decoder:
quote, backslash, slash, and the letters b, f, n, r, t for backspace,
form feed, line feed, carriage return and tab. -/
def escChar (c : Char) : Option Char :=
  match c.toNat with
  | 34 => some (Char.ofNat 34)
  | 92 => some (Char.ofNat 92)
  | 47 => some (Char.ofNat 47)
  | 98 => some (Char.ofNat 8)
  | 102 => some (Char.ofNat 12)
  | 110 => some (Char.ofNat 10)
  | 114 => some (Char.ofNat 13)
  | 116 => some (Char.ofNat 9)
  | _ => none

/-- Body of a JSON string after the opening quote.  Mirrors Go `unquote`:
raw control characters are rejected, `\uXXXX` surrogate pairs are
combined, unpaired surrogates decode to U+FFFD.  Every step consumes at
least one character, so the fuel supplied by `parseStringBody` never
runs out. -/
def strBody : Nat → List Char → List Char → Option (String × List Char)
  | 0, _, _ => none
  | Nat.succ fuel, acc, cs =>
    match cs with
    | '"' :: rest => some (String.mk acc.reverse, rest)
    | '\\' :: 'u' :: h1 :: h2 :: h3 :: h4 :: rest =>
      match hex4 h1 h2 h3 h4 with
      | none => none
      | some n =>
        if 0xD800 ≤ n ∧ n ≤ 0xDBFF then
          match rest with
          | '\\' :: 'u' :: g1 :: g2 :: g3 :: g4 :: rest2 =>
            match hex4 g1 g2 g3 g4 with
            | some m =>
              if 0xDC00 ≤ m ∧ m ≤ 0xDFFF then
                strBody fuel (Char.ofNat (0x10000 + (n - 0xD800) * 0x400 + (m - 0xDC00)) :: acc) rest2
              else strBody fuel (Char.ofNat 0xFFFD :: acc) rest
            | none => strBody fuel (Char.ofNat 0xFFFD :: acc) rest
          | _ => strBody fuel (Char.ofNat 0xFFFD :: acc) rest
        else if 0xDC00 ≤ n ∧ n ≤ 0xDFFF then
          strBody fuel (Char.ofNat 0xFFFD :: acc) rest
        else
          strBody fuel (Char.ofNat n :: acc) rest
    | '\\' :: e :: rest =>
      match escChar e with
      | some c => strBody fuel (c :: acc) rest
      | none => none
    | c :: rest =>
      if c.toNat < 0x20 then none else strBody fuel (c :: acc) rest
    | [] => none

def parseStringBody (cs : List Char) : Option (String × List Char) :=
  strBody (cs.length + 1) [] cs

/-- Greedy lexing of a JSON number; the surrounding grammar rejects any
leftover characters, matching the Go scanner on malformed numerals. -/
def parseNumber (cs : List Char) : Option (JValue × List Char) :=
  let (sign, cs1) :=
    match cs with
    | '-' :: rest => ((['-'] : List Char), rest)
    | _ => ([], cs)
  match cs1 with
  | [] => none
  | c :: cs2 =>
    if ¬ isDigitChar c then none
    else
      let (intPart, rest1) :=
        if c == '0' then ((['0'] : List Char), cs2)
        else (cs1.takeWhile isDigitChar, cs1.dropWhile isDigitChar)
      let (fracPart, rest2) :=
        match rest1 with
        | '.' :: d :: _ =>
          if isDigitChar d then
            ('.' :: (rest1.tail.takeWhile isDigitChar), rest1.tail.dropWhile isDigitChar)
          else (([] : List Char), rest1)
        | _ => ([], rest1)
      let (expPart, rest3) :=
        match rest2 with
        | e :: rest' =>
          if e == 'e' || e == 'E' then
            let (sgn, rest'') :=
              match rest' with
              | '+' :: r => ((['+'] : List Char), r)
              | '-' :: r => ((['-'] : List Char), r)
              | _ => ([], rest')
            match rest'' with
            | d :: _ =>
              if isDigitChar d then
                (e :: sgn ++ rest''.takeWhile isDigitChar, rest''.dropWhile isDigitChar)
              else (([] : List Char), rest2)
            | [] => ([], rest2)
          else ([], rest2)
        | [] => ([], rest2)
      some (JValue.num (String.mk (sign ++ intPart ++ fracPart ++ expPart)), rest3)

mutual

/-- Recursive-descent JSON value parser.  The fuel argument only bounds
recursion depth; `jsonUnmarshalObject` supplies more fuel than any input
can consume. -/
def parseVal : Nat → List Char → Option (JValue × List Char)
  | 0, _ => none
  | Nat.succ fuel, cs =>
    match skipWs cs with
    | '\x7b' :: rest => parseObjBody fuel rest
    | '[' :: rest => parseArrBody fuel rest
    | '"' :: rest =>
      match parseStringBody rest with
      | some (s, r) => some (JValue.str s, r)
      | none => none
    | 't' :: 'r' :: 'u' :: 'e' :: rest => some (JValue.bool true, rest)
    | 'f' :: 'a' :: 'l' :: 's' :: 'e' :: rest => some (JValue.bool false, rest)
    | 'n' :: 'u' :: 'l' :: 'l' :: rest => some (JValue.null, rest)
    | rest => parseNumber rest

def parseObjBody : Nat → List Char → Option (JValue × List Char)
  | 0, _ => none
  | Nat.succ fuel, cs =>
    match skipWs cs with
    | '\x7d' :: rest => some (JValue.obj [], rest)
    | rest => parseMembers fuel rest []

def parseMembers : Nat → List Char → List (String × JValue) → Option (JValue × List Char)
  | 0, _, _ => none
  | Nat.succ fuel, cs, acc =>
    match skipWs cs with
    | '"' :: rest =>
      match parseStringBody rest with
      | none => none
      | some (key, afterKey) =>
        match skipWs afterKey with
        | ':' :: afterColon =>
          match parseVal fuel afterColon with
          | none => none
          | some (v, afterVal) =>
            match skipWs afterVal with
            | ',' :: afterComma => parseMembers fuel afterComma (acc ++ [(key, v)])
            | '\x7d' :: afterClose => some (JValue.obj (acc ++ [(key, v)]), afterClose)
            | _ => none
        | _ => none
    | _ => none

def parseArrBody : Nat → List Char → Option (JValue × List Char)
  | 0, _ => none
  | Nat.succ fuel, cs =>
    match skipWs cs with
    | ']' :: rest => some (JValue.arr [], rest)
    | rest => parseItems fuel rest []

def parseItems : Nat → List Char → List JValue → Option (JValue × List Char)
  | 0, _, _ => none
  | Nat.succ fuel, cs, acc =>
    match parseVal fuel cs with
    | none => none
    | some (v, afterVal) =>
      match skipWs afterVal with
      | ',' :: afterComma => parseItems fuel afterComma (acc ++ [v])
      | ']' :: afterClose => some (JValue.arr (acc ++ [v]), afterClose)
      | _ => none

end

/-- Go `json.Unmarshal(data, &m)` for `m : map[string]interface{}`:
succeeds exactly when the input is a single JSON object, possibly
surrounded by white space, with nothing after it. -/
def jsonUnmarshalObject (s : String) : Option (List (String × JValue)) :=
  match parseVal (4 * s.length + 16) s.data with
  | some (JValue.obj fields, rest) => if skipWs rest = [] then some fields else none
  | _ => none

/-- Map lookup for a decoded object.  A duplicate key in the JSON source
overwrites the earlier one in the Go map, so the last binding wins. -/
def lookupField (fields : List (String × JValue)) (k : String) : Option JValue :=
  (fields.reverse.find? (fun p => p.1 == k)).map Prod.snd

/-- Go type assertion `v.(string)` with an ok flag. -/
def jstr? : Option JValue → Option String
  | some (JValue.str s) => some s
  | _ => none

/-- Go type assertion `v.(string)` discarding the ok flag (zero value ""). -/
def jstrD (v : Option JValue) : String := (jstr? v).getD ""

/-- Go type assertion `v.(bool)` discarding the ok flag (zero value false). -/
def jboolD : Option JValue → Bool
  | some (JValue.bool b) => b
  | _ => false

/-- Go type assertion `v.([]interface\x7b\x7d)` with an ok flag. -/
def jarr? : Option JValue → Option (List JValue)
  | some (JValue.arr xs) => some xs
  | _ => none

/-- Go type assertion `v.(map[string]interface\x7b\x7d)` with an ok flag. -/
def jobj? : Option JValue → Option (List (String × JValue))
  | some (JValue.obj fs) => some fs
  | _ => none

/-- Go `strings.Join(elems, sep)`. -/
def goStringsJoin (elems : List String) (sep : String) : String :=
  match elems with
  | [] => ""
  | x :: xs => xs.foldl (fun acc y => acc ++ sep ++ y) x

/-! ### Output parsers (internal/agent)

Each `Parse` is translated from its Go source file.  `X.Parse` models
`func (p *XParser) Parse(output string) string`. -/

/-- Go `StreamJSONParser.extractFromResult`: on an error event, prefer a
non-empty `error` string, otherwise fall back to a non-empty `result`
string, otherwise extract nothing. -/
def StreamJSONParser.extractFromResult (event : List (String × JValue)) : String :=
  let fromResult : String :=
    match jstr? (lookupField event "result") with
    | some r => if r ≠ "" then r else ""
    | none => ""
  if jboolD (lookupField event "is_error") then
    match jstr? (lookupField event "error") with
    | some errMsg => if errMsg ≠ "" then errMsg else fromResult
    | none => fromResult
  else fromResult

/-- Go `StreamJSONParser.extractFromAssistant`: the newline-join of the
non-empty `text` fields of `message.content[*]` blocks typed "text". -/
def StreamJSONParser.extractFromAssistant (event : List (String × JValue)) : String :=
  match jobj? (lookupField event "message") with
  | none => ""
  | some message =>
    match jarr? (lookupField message "content") with
    | none => ""
    | some content =>
      let parts := content.filterMap (fun c =>
        match c with
        | JValue.obj contentBlock =>
          if jstrD (lookupField contentBlock "type") = "text" then
            match jstr? (lookupField contentBlock "text") with
            | some text => if text ≠ "" then some text else none
            | none => none
          else none
        | _ => none)
      goStringsJoin parts "\n"

/-- Go `StreamJSONParser.extractFromLine`. -/
def StreamJSONParser.extractFromLine (line : String) : String :=
  match jsonUnmarshalObject line with
  | none => ""
  | some event =>
    let eventType := jstrD (lookupField event "type")
    if eventType = "assistant" then StreamJSONParser.extractFromAssistant event
    else if eventType = "result" then StreamJSONParser.extractFromResult event
    else ""

/-- Go `StreamJSONParser.Parse` (shared by Claude, Cursor and Amp): scan
lines, extract from each trimmed line starting with a brace, join the
non-empty extractions with single newlines, and fall back to the
original input when nothing was extracted. -/
def StreamJSONParser.Parse (output : String) : String :=
  if output = "" ∨ goTrimSpace output = "" then output
  else
    let res := (goSplitNewline output).foldl (fun acc rawLine =>
      let line := goTrimSpace rawLine
      if line = "" ∨ ¬ goStartsWith line "\x7b" then acc
      else
        let extracted := StreamJSONParser.extractFromLine line
        if extracted = "" then acc
        else if acc = "" then extracted
        else acc ++ "\n" ++ extracted) ""
    if res = "" then output else res

/-- Go `CodexParser.extractFromMessage`: newline-join of non-empty `text`
fields of "text" blocks and non-empty `thinking` fields of "thinking"
blocks, in content order. -/
def CodexParser.extractFromMessage (item : List (String × JValue)) : String :=
  match jarr? (lookupField item "content") with
  | none => ""
  | some content =>
    let parts := content.filterMap (fun c =>
      match c with
      | JValue.obj contentBlock =>
        let blockType := jstrD (lookupField contentBlock "type")
        if blockType = "text" then
          match jstr? (lookupField contentBlock "text") with
          | some text => if text ≠ "" then some text else none
          | none => none
        else if blockType = "thinking" then
          match jstr? (lookupField contentBlock "thinking") with
          | some thinking => if thinking ≠ "" then some thinking else none
          | none => none
        else none
      | _ => none)
    goStringsJoin parts "\n"

/-- Go `CodexParser.extractFromItem`. -/
def CodexParser.extractFromItem (event : List (String × JValue)) : String :=
  match jobj? (lookupField event "item") with
  | none => ""
  | some item =>
    let itemType := jstrD (lookupField item "type")
    if itemType = "message" then CodexParser.extractFromMessage item
    else if itemType = "function_call_output" then
      match jstr? (lookupField item "output") with
      | some output => output
      | none => ""
    else ""

/-- Go `CodexParser.extractFromLine`. -/
def CodexParser.extractFromLine (line : String) : String :=
  match jsonUnmarshalObject line with
  | none => ""
  | some event =>
    let eventType := jstrD (lookupField event "type")
    if eventType = "item" then CodexParser.extractFromItem event
    else if eventType = "aggregated_output" then
      match jstr? (lookupField event "output") with
      | some output => output
      | none => ""
    else ""

/-- Go `CodexParser.Parse`: same line driver as the stream-JSON family
with the Codex extraction. -/
def CodexParser.Parse (output : String) : String :=
  if output = "" ∨ goTrimSpace output = "" then output
  else
    let res := (goSplitNewline output).foldl (fun acc rawLine =>
      let line := goTrimSpace rawLine
      if line = "" ∨ ¬ goStartsWith line "\x7b" then acc
      else
        let extracted := CodexParser.extractFromLine line
        if extracted = "" then acc
        else if acc = "" then extracted
        else acc ++ "\n" ++ extracted) ""
    if res = "" then output else res

/-- Go `GeminiParser.extractFromLine`: assistant delta messages carry a
string `content` field. -/
def GeminiParser.extractFromLine (line : String) : String :=
  match jsonUnmarshalObject line with
  | none => ""
  | some event =>
    if jstrD (lookupField event "type") = "message" then
      if jstrD (lookupField event "role") = "assistant" then
        match jstr? (lookupField event "content") with
        | some content => content
        | none => ""
      else ""
    else ""

/-- Go `GeminiParser.Parse`: deltas are concatenated without intervening
newlines. -/
def GeminiParser.Parse (output : String) : String :=
  if output = "" ∨ goTrimSpace output = "" then output
  else
    let res := (goSplitNewline output).foldl (fun acc rawLine =>
      let line := goTrimSpace rawLine
      if line = "" ∨ ¬ goStartsWith line "\x7b" then acc
      else
        let extracted := GeminiParser.extractFromLine line
        if extracted = "" then acc else acc ++ extracted) ""
    if res = "" then output else res

/-- Go `AuggieParser.Parse`: a single JSON object (not JSONL).  Note the
Go code reassigns `output = strings.TrimSpace(output)` before the brace
check, so every later `return output` returns the trimmed input. -/
def AuggieParser.Parse (output : String) : String :=
  if output = "" ∨ goTrimSpace output = "" then output
  else
    let t := goTrimSpace output
    if ¬ goStartsWith t "\x7b" then t
    else
      match jsonUnmarshalObject t with
      | none => t
      | some event =>
        let fromResult : String :=
          match jstr? (lookupField event "result") with
          | some r => goTrimSpace r
          | none => t
        if jstrD (lookupField event "type") = "result" then
          if jboolD (lookupField event "is_error") then
            match jstr? (lookupField event "error") with
            | some errMsg => if errMsg ≠ "" then errMsg else fromResult
            | none => fromResult
          else fromResult
        else t

/-- Go `NoopParser.Parse`: identity. -/
def NoopParser.Parse (output : String) : String := output

/-! ### Agents and session responses -/

/-- Discovered agent (internal/agent `Agent`); the CLI pattern is not
consulted by any property below and is omitted. -/
structure Agent where
  Name : String
  Path : String := ""
  Authenticated : Bool
  Version : String := ""
deriving Repr, DecidableEq

/-- One turn result from a session (internal/session `Response`).  The
default values are the Go zero value of the struct. -/
structure Response where
  Output : String := ""
  ContextUsage : Rat := 0
  Error : Option String := none
deriving Repr, DecidableEq

/-! ### Context-usage regex (internal/session `parseContextUsage`)

Go pattern: case-insensitive, one or more digits, a percent sign, one or
more regex white-space characters, the word "used".  The RE2 classes are
ASCII: digits [0-9] and spaces [tab newline formfeed carriage-return
space]; case folding of "used" also admits the long s U+017F. -/

def isRegexDigit (c : Char) : Bool := '0' ≤ c && c ≤ '9'

def isRegexSpace (c : Char) : Bool :=
  c.toNat = 32 || c.toNat = 9 || c.toNat = 10 || c.toNat = 12 || c.toNat = 13

def foldU (c : Char) : Bool := c == 'u' || c == 'U'

def foldS (c : Char) : Bool := c == 's' || c == 'S' || c.toNat = 0x17F

def foldE (c : Char) : Bool := c == 'e' || c == 'E'

def foldD (c : Char) : Bool := c == 'd' || c == 'D'

/-- Attempt to match the usage pattern anchored at the head of `cs`,
returning the captured digit run. -/
def usageMatchAt (cs : List Char) : Option (List Char) :=
  let digits := cs.takeWhile isRegexDigit
  if digits = [] then none
  else
    match cs.drop digits.length with
    | '%' :: rest =>
      let ws := rest.takeWhile isRegexSpace
      if ws = [] then none
      else
        match rest.drop ws.length with
        | u :: s :: e :: d :: _ =>
          if foldU u && foldS s && foldE e && foldD d then some digits else none
        | _ => none
    | _ => none

/-- Leftmost match of the usage pattern (Go `FindStringSubmatch`). -/
def findUsageMatch : List Char → Option (List Char)
  | [] => none
  | c :: cs =>
    match usageMatchAt (c :: cs) with
    | some digits => some digits
    | none => findUsageMatch cs

def digitsToNat (ds : List Char) : Nat :=
  ds.foldl (fun n c => 10 * n + (c.toNat - 48)) 0

/-- Go `strconv.Atoi` range: a 64-bit signed int. -/
def maxGoInt : Nat := 9223372036854775807

/-- Go `parseContextUsage`: the rational n/100 for the first match whose
digits fit a Go int, otherwise the sentinel -1. -/
def parseContextUsage (line : String) : Rat :=
  match findUsageMatch line.data with
  | some digits =>
    if digitsToNat digits ≤ maxGoInt then mkRat (digitsToNat digits) 100 else -1
  | none => -1

/-! ### Session state machine (internal/planning `DefaultSession`)

The mutable fields of the Go struct, with the nil-ness of the process
and pipe handles as booleans.  External effects (closing pipes, killing
and reaping the child) are recorded in an explicit effect list so that
idempotence of Close is observable. -/

inductive SessionEffect where
  | closeStdin : SessionEffect
  | closeStdout : SessionEffect
  | closeStderr : SessionEffect
  | killProcess : SessionEffect
  | waitProcess : SessionEffect
  | writeStdin (prompt : String) : SessionEffect
deriving Repr, DecidableEq

structure DefaultSession where
  agent : Agent
  started : Bool := false
  alive : Bool := false
  outputBuffer : String := ""
  contextUsage : Rat := 0
  agentsPath : String := ""
  hasStdin : Bool := false
  hasStdout : Bool := false
  hasStderr : Bool := false
  hasProcess : Bool := false
deriving Repr, DecidableEq

/-- Go `DefaultSession.readOutput`, one scanned line: append the line and
a newline to the buffer and adopt a non-negative parsed usage. -/
def DefaultSession.readLine (s : DefaultSession) (line : String) : DefaultSession :=
  let usage := parseContextUsage line
  { s with
    outputBuffer := s.outputBuffer ++ line ++ "\n"
    contextUsage := if usage ≥ 0 then usage else s.contextUsage }

/-- The reader goroutine over a whole sequence of output lines. -/
def DefaultSession.readLines (s : DefaultSession) (lines : List String) : DefaultSession :=
  lines.foldl DefaultSession.readLine s

/-- Go `DefaultSession.Close`: a no-op success when not started;
otherwise close the pipes, kill and reap the process, and clear the
started and alive flags.  Returns the new state, the returned error
(always nil) and the external effects performed. -/
def DefaultSession.Close (s : DefaultSession) :
    DefaultSession × Option String × List SessionEffect :=
  if ¬ s.started then (s, none, [])
  else
    let effects :=
      (if s.hasStdin then [SessionEffect.closeStdin] else []) ++
      (if s.hasStdout then [SessionEffect.closeStdout] else []) ++
      (if s.hasStderr then [SessionEffect.closeStderr] else []) ++
      (if s.hasProcess then [SessionEffect.killProcess, SessionEffect.waitProcess] else [])
    ({ s with alive := false, started := false }, none, effects)

/-- Go `DefaultSession.Send`.  `writeOk` abstracts whether the write to
the child's stdin pipe succeeds.  Returns the new state, the returned
Response, the returned error and the external effects performed. -/
def DefaultSession.Send (s : DefaultSession) (prompt : String) (writeOk : Bool) :
    DefaultSession × Response × Option String × List SessionEffect :=
  if ¬ s.started then (s, {}, some "session not started", [])
  else if ¬ s.alive then (s, {}, some "session not alive", [])
  else
    let s1 := { s with outputBuffer := "" }
    if ¬ writeOk then
      ({ s1 with alive := false },
       { Error := some "failed to send prompt" },
       some "failed to send prompt",
       [SessionEffect.writeStdin prompt])
    else
      (s1,
       { Output := s1.outputBuffer, ContextUsage := s1.contextUsage, Error := none },
       none,
       [SessionEffect.writeStdin prompt])

/-! ### Round results and convergence (internal/orchestrator,
internal/convergence) -/

/-- Outcome of one agent turn (internal/orchestrator `AgentResult`). -/
structure AgentResult where
  Agent : Agent
  Response : Response := {}
  BeadsChanged : List String := []
  Error : Option String := none
  Skipped : Bool := false
deriving Repr, DecidableEq

/-- Outcome of a round (internal/orchestrator `RoundResult`). -/
structure RoundResult where
  Round : Int := 0
  AgentResults : List AgentResult := []
  TotalChanges : Int := 0
  FailedCount : Int := 0
  SkippedCount : Int := 0
deriving Repr, DecidableEq

/-- Convergence detector state (internal/convergence `defaultDetector`). -/
structure defaultDetector where
  threshold : Int
  consecutiveNoChange : Int := 0
deriving Repr, DecidableEq

/-- Go `NewDetector`: threshold 1, zero streak. -/
def NewDetector : defaultDetector := { threshold := 1 }

/-- Go `defaultDetector.IsConverged`: false when `TotalChanges > 0`,
otherwise true unless some non-skipped, non-errored agent changed
beads. -/
def defaultDetector.IsConverged (result : RoundResult) : Bool :=
  if result.TotalChanges > 0 then false
  else
    result.AgentResults.all (fun ar =>
      ar.Skipped || ar.Error.isSome || ar.BeadsChanged.isEmpty)

/-- Go `defaultDetector.CheckConvergence`: update the streak and compare
it with the threshold. -/
def defaultDetector.CheckConvergence (d : defaultDetector) (result : RoundResult) :
    defaultDetector × Bool :=
  let d' :=
    if defaultDetector.IsConverged result then
      { d with consecutiveNoChange := d.consecutiveNoChange + 1 }
    else
      { d with consecutiveNoChange := 0 }
  (d', d'.consecutiveNoChange ≥ d'.threshold)

/-- Go `defaultDetector.Reset`. -/
def defaultDetector.Reset (d : defaultDetector) : defaultDetector :=
  { d with consecutiveNoChange := 0 }

/-- Go `defaultDetector.SetThreshold`: clamp to at least 1. -/
def defaultDetector.SetThreshold (d : defaultDetector) (n : Int) : defaultDetector :=
  { d with threshold := if n < 1 then 1 else n }

/-- Folding `CheckConvergence` over a sequence of rounds. -/
def defaultDetector.CheckMany (d : defaultDetector) (rounds : List RoundResult) :
    defaultDetector × List Bool :=
  rounds.foldl
    (fun (acc : defaultDetector × List Bool) r =>
      let (d', b) := defaultDetector.CheckConvergence acc.1 r
      (d', acc.2 ++ [b]))
    (d, [])

/-! ### Round orchestration (internal/orchestrator `RunRound`)

The orchestrator's collaborators — the session manager, session Start
and session Send — are abstracted as an environment giving, for each
agent position, the error (if any) of CreateSession and Start and the
Response/error pair of Send.  The returned log records the positions at
which CreateSession succeeded (i.e. a session object was created),
mirroring the Go control flow. -/

structure PlanningContext where
  Prompt : String := ""
  AgentsPath : String := ""
  BeadsState : String := ""
  Round : Int := 0
  IsFirstTurn : Bool := false
  FeedbackMode : Bool := false
  AgentName : String := ""
deriving Repr, DecidableEq

structure OrchEnv where
  hasSessionMgr : Bool := true
  createSession : Nat → Option String := fun _ => none
  startSession : Nat → Option String := fun _ => none
  send : Nat → Response × Option String := fun _ => ({}, none)

/-- Go `parseBeadChanges`: the source returns an empty slice for every
input (changes are tracked by the beads diff instead). -/
def parseBeadChanges (_output : String) : List String := []

/-- The body of the Go `for i, ag := range agents` loop in `RunRound`,
specialised to one agent at position `i`; returns the appended result,
whether the failed counter was incremented, and whether a session object
was created. -/
def runAgentTurn (env : OrchEnv) (i : Nat) (ag : Agent) : AgentResult × Bool × Bool :=
  let base : AgentResult := { Agent := ag, BeadsChanged := [] }
  if ¬ ag.Authenticated then
    ({ base with Skipped := true }, false, false)
  else if ¬ env.hasSessionMgr then
    ({ base with Error := some "context canceled" }, true, false)
  else
    match env.createSession i with
    | some err => ({ base with Error := some err }, true, false)
    | none =>
      match env.startSession i with
      | some err => ({ base with Error := some err }, true, true)
      | none =>
        let (resp, sendErr) := env.send i
        match sendErr with
        | some err => ({ base with Error := some err, Response := resp }, true, true)
        | none =>
          ({ base with
              Response := resp
              BeadsChanged := parseBeadChanges resp.Output }, false, true)

/-- Sequential walk over the agents, accumulating the round result and
the agents for which a session object was created. -/
def runRoundAux (env : OrchEnv) : Nat → List Agent → RoundResult → List Agent →
    RoundResult × List Agent
  | _, [], result, log => (result, log)
  | i, ag :: rest, result, log =>
    let (ar, failed, created) := runAgentTurn env i ag
    let result' :=
      { result with
        AgentResults := result.AgentResults ++ [ar]
        TotalChanges := result.TotalChanges + ar.BeadsChanged.length
        FailedCount := result.FailedCount + (if failed then 1 else 0)
        SkippedCount := result.SkippedCount + (if ar.Skipped then 1 else 0) }
    runRoundAux env (i + 1) rest result' (if created then log ++ [ag] else log)

/-- Go `defaultOrchestrator.RunRound`: one result per agent in input
order; always returns a nil error. -/
def RunRound (env : OrchEnv) (agents : List Agent) (planCtx : PlanningContext) :
    RoundResult × List Agent × Option String :=
  let init : RoundResult := { Round := planCtx.Round, AgentResults := [] }
  let (result, log) := runRoundAux env 0 agents init []
  (result, log, none)

/-! ### Parallel dispatch (internal/dispatch `Dispatch`)

A session is abstracted by its agent and the outcome of its single Send;
the fan-out gathers one result per session and sorts them by agent name
(Go `sort.Slice` with a strict less; any interleaving of the collection
yields the same sorted output for distinct names). -/

structure DispatchSession where
  agent : Agent
  sendResponse : Response := {}
  sendError : Option String := none
deriving Repr, DecidableEq

structure DispatchResult where
  Agent : Agent
  Response : Response := {}
  Error : Option String := none
deriving Repr, DecidableEq

/-- Results ordered by agent name.  Go compares strings by byte order;
UTF-8 byte order coincides with the lexicographic order on the decoded
character sequences, modelled by the order on `List Char`. -/
def dispatchLE (a b : DispatchResult) : Prop := a.Agent.Name.data ≤ b.Agent.Name.data

instance : DecidableRel dispatchLE := fun a b =>
  inferInstanceAs (Decidable (a.Agent.Name.data ≤ b.Agent.Name.data))

def mkDispatchResult (s : DispatchSession) : DispatchResult :=
  { Agent := s.agent, Response := s.sendResponse, Error := s.sendError }

/-- Go `dispatcher.Dispatch`: empty input short-circuits; otherwise one
result per session, sorted ascending by agent name (`sort.Slice` with a
strict name comparison; modelled by a stable sort under the
corresponding total order). -/
def Dispatch (sessions : List DispatchSession) : List DispatchResult :=
  if sessions.length = 0 then []
  else (sessions.map mkDispatchResult).insertionSort dispatchLE

/-! ### Specification-side definitions

These follow the words of the specification claims (not the Go source),
for comparison against the translated code.  `joinLines` renders
"concatenated with single newlines". -/

def joinLines : List String → String
  | [] => ""
  | [x] => x
  | x :: y :: rest => x ++ "\n" ++ joinLines (y :: rest)

/-- Claim C2 wording, per decoded event: an assistant event yields the
texts of its "text" content blocks joined with newlines; a result event
with `is_error == true` yields the `error` field; a result event
otherwise yields the `result` field; other events yield nothing. -/
def StreamJSONSpec.extractEvent (event : List (String × JValue)) : String :=
  let eventType := jstrD (lookupField event "type")
  if eventType = "assistant" then
    match jobj? (lookupField event "message") with
    | none => ""
    | some message =>
      match jarr? (lookupField message "content") with
      | none => ""
      | some content =>
        joinLines (content.filterMap (fun c =>
          match c with
          | JValue.obj contentBlock =>
            if jstrD (lookupField contentBlock "type") = "text" then
              match jstr? (lookupField contentBlock "text") with
              | some text => if text ≠ "" then some text else none
              | none => none
            else none
          | _ => none))
  else if eventType = "result" then
    if jboolD (lookupField event "is_error") then jstrD (lookupField event "error")
    else jstrD (lookupField event "result")
  else ""

/-- The fragments a claim-level line scan extracts from the input: each
line that (after trimming) starts with a brace and decodes as a JSON
object contributes its non-empty event extraction. -/
def specFragments (extractEvent : List (String × JValue) → String) (output : String) :
    List String :=
  (goSplitNewline output).filterMap (fun rawLine =>
    let line := goTrimSpace rawLine
    if goStartsWith line "\x7b" then
      match jsonUnmarshalObject line with
      | some event =>
        let e := extractEvent event
        if e = "" then none else some e
      | none => none
    else none)

/-- Claim-level line driver: empty and white-space-only inputs are
returned unchanged; otherwise the extracted fragments are joined with
single newlines, falling back to the original input when nothing was
extracted. -/
def specJoinPipeline (extractEvent : List (String × JValue) → String) (output : String) :
    String :=
  if output = "" ∨ goTrimSpace output = "" then output
  else
    let frags := specFragments extractEvent output
    if frags = [] then output else joinLines frags

/-- Claim C2 as stated: the stream-JSON parser according to the claim's
extraction rules. -/
def StreamJSONSpec.Parse (output : String) : String :=
  specJoinPipeline StreamJSONSpec.extractEvent output

/-- Amended C2 wording, per decoded event: as the claim, except that a
result event with `is_error == true` yields the `error` field only when
it is a non-empty string and otherwise falls back to the `result` field,
and a result event yields the `result` field only when it is a non-empty
string; assistant events contribute only non-empty texts. -/
def StreamJSONSpecAmended.extractEvent (event : List (String × JValue)) : String :=
  let eventType := jstrD (lookupField event "type")
  if eventType = "assistant" then
    match jobj? (lookupField event "message") with
    | none => ""
    | some message =>
      match jarr? (lookupField message "content") with
      | none => ""
      | some content =>
        joinLines (content.filterMap (fun c =>
          match c with
          | JValue.obj contentBlock =>
            if jstrD (lookupField contentBlock "type") = "text" then
              match jstr? (lookupField contentBlock "text") with
              | some text => if text ≠ "" then some text else none
              | none => none
            else none
          | _ => none))
  else if eventType = "result" then
    let err := jstr? (lookupField event "error")
    let res := jstr? (lookupField event "result")
    if jboolD (lookupField event "is_error") ∧ err.getD "" ≠ "" then err.getD ""
    else if res.getD "" ≠ "" then res.getD ""
    else ""
  else ""

/-- Amended claim C2: the stream-JSON parser according to the amended
extraction rules. -/
def StreamJSONSpecAmended.Parse (output : String) : String :=
  specJoinPipeline StreamJSONSpecAmended.extractEvent output

/-- Claim C9 as stated: unchanged input on malformed JSON or non-JSON
text; the `error` field for an error result; otherwise the `result`
field trimmed of surrounding white space. -/
def AuggieSpec.Parse (s : String) : String :=
  match jsonUnmarshalObject s with
  | none => s
  | some event =>
    if jstrD (lookupField event "type") = "result" ∧ jboolD (lookupField event "is_error") then
      jstrD (lookupField event "error")
    else goTrimSpace (jstrD (lookupField event "result"))

/-- Amended claim C9: empty and white-space-only inputs are returned
fully unchanged; non-JSON or malformed input is returned trimmed of
surrounding white space; a parsed object that is not a result event, or
a result event without a string `result` field (unless an error applies),
also yields the trimmed input; a result event with `is_error == true`
and a non-empty string `error` field yields that error; otherwise a
string `result` field is returned trimmed. -/
def AuggieSpecAmended.Parse (s : String) : String :=
  let t := goTrimSpace s
  if t = "" then s
  else if ¬ goStartsWith t "\x7b" then t
  else
    match jsonUnmarshalObject t with
    | none => t
    | some event =>
      if jstrD (lookupField event "type") ≠ "result" then t
      else
        let err := jstr? (lookupField event "error")
        let res := jstr? (lookupField event "result")
        if jboolD (lookupField event "is_error") ∧ err.getD "" ≠ "" then err.getD ""
        else
          match res with
          | some r => goTrimSpace r
          | none => t

/-- The per-line fragment of the stream-JSON line drivers: `none` when
the trimmed line is skipped or its extraction is empty. -/
def lineFrag (extract : String → String) (rawLine : String) : Option String :=
  let line := goTrimSpace rawLine
  if line = "" ∨ ¬ goStartsWith line "\x7b" then none
  else
    let extracted := extract line
    if extracted = "" then none else some extracted

/-- The accumulator step of the stream-JSON line drivers, phrased through
`lineFrag`-style options. -/
def optStep (g : String → Option String) (acc rawLine : String) : String :=
  match g rawLine with
  | none => acc
  | some e => if acc = "" then e else acc ++ "\n" ++ e

/-! ## Theorems -/

theorem append_ne_empty_right (a b : String) (h : b ≠ "") : a ++ b ≠ "" := by
  intro habs
  have hd := congrArg String.data habs
  rw [String.data_append] at hd
  rcases List.append_eq_nil.mp hd with ⟨_, h2⟩
  apply h
  cases b with
  | mk l =>
    simp only [String.data] at h2
    simp [h2]

theorem append_ne_empty_left (a b : String) (h : a ≠ "") : a ++ b ≠ "" := by
  intro habs
  have hd := congrArg String.data habs
  rw [String.data_append] at hd
  rcases List.append_eq_nil.mp hd with ⟨h1, _⟩
  apply h
  cases a with
  | mk l =>
    simp only [String.data] at h1
    simp [h1]

theorem joinLines_cons (e : String) (l : List String) (h : l ≠ []) :
    joinLines (e :: l) = e ++ "\n" ++ joinLines l := by
  cases l with
  | nil => exact absurd rfl h
  | cons y r => rfl

theorem joinLines_ne_empty (l : List String) (hall : ∀ x ∈ l, x ≠ "") (hne : l ≠ []) :
    joinLines l ≠ "" := by
  cases l with
  | nil => exact absurd rfl hne
  | cons x r =>
    cases r with
    | nil => exact hall x (List.mem_cons_self x [])
    | cons y r' =>
      show x ++ "\n" ++ joinLines (y :: r') ≠ ""
      exact append_ne_empty_left _ _
        (append_ne_empty_left _ _ (hall x (List.mem_cons_self x _)))

theorem joinLines_append_head (a b : String) (r : List String) :
    joinLines ((a ++ "\n" ++ b) :: r) = a ++ "\n" ++ joinLines (b :: r) := by
  cases r with
  | nil => rfl
  | cons y r' =>
    show (a ++ "\n" ++ b) ++ "\n" ++ joinLines (y :: r') =
      a ++ "\n" ++ (b ++ "\n" ++ joinLines (y :: r'))
    simp [String.append_assoc]

theorem goStringsJoin_foldl (xs : List String) : ∀ x : String,
    xs.foldl (fun acc y => acc ++ "\n" ++ y) x = joinLines (x :: xs) := by
  induction xs with
  | nil => intro x; rfl
  | cons y r ih =>
    intro x
    rw [List.foldl_cons, ih (x ++ "\n" ++ y), joinLines_append_head]
    rfl

theorem goStringsJoin_eq_joinLines (l : List String) :
    goStringsJoin l "\n" = joinLines l := by
  cases l with
  | nil => rfl
  | cons x xs => exact goStringsJoin_foldl xs x

theorem foldl_optStep (g : String → Option String)
    (hg : ∀ r e, g r = some e → e ≠ "") :
    ∀ (lines : List String) (acc : String),
      lines.foldl (optStep g) acc =
        (if lines.filterMap g = [] then acc
         else if acc = "" then joinLines (lines.filterMap g)
         else acc ++ "\n" ++ joinLines (lines.filterMap g)) := by
  intro lines
  induction lines with
  | nil => intro acc; simp
  | cons r rest ih =>
    intro acc
    rw [List.foldl_cons, List.filterMap_cons]
    cases hgr : g r with
    | none =>
      have hstep : optStep g acc r = acc := by simp [optStep, hgr]
      rw [hstep, ih acc]
    | some e =>
      have he : e ≠ "" := hg r e hgr
      have hstep : optStep g acc r = if acc = "" then e else acc ++ "\n" ++ e := by
        simp [optStep, hgr]
      rw [hstep, ih _]
      have hA : (if acc = "" then e else acc ++ "\n" ++ e) ≠ "" := by
        by_cases hacc : acc = ""
        · simpa [hacc] using he
        · simp only [if_neg hacc]
          exact append_ne_empty_right _ _ he
      by_cases hF : rest.filterMap g = []
      · simp only [hF, if_pos rfl]
        simp only [List.cons_ne_nil, if_neg]
        by_cases hacc : acc = ""
        · simp [hacc, joinLines]
        · simp [hacc, joinLines]
      · simp only [if_neg hF, if_neg hA]
        have hcons : joinLines (e :: rest.filterMap g) = e ++ "\n" ++ joinLines (rest.filterMap g) :=
          joinLines_cons e _ hF
        simp only [List.cons_ne_nil, if_neg, not_false_iff]
        by_cases hacc : acc = ""
        · simp [hacc, hcons]
        · simp only [if_neg hacc, hcons]
          simp [String.append_assoc]

theorem streamResult_eq (ev : List (String × JValue)) :
    StreamJSONParser.extractFromResult ev =
      (let err := jstr? (lookupField ev "error")
       let res := jstr? (lookupField ev "result")
       if jboolD (lookupField ev "is_error") ∧ err.getD "" ≠ "" then err.getD ""
       else if res.getD "" ≠ "" then res.getD ""
       else "") := by
  unfold StreamJSONParser.extractFromResult
  cases hb : jboolD (lookupField ev "is_error") with
  | false =>
    cases hres : jstr? (lookupField ev "result") with
    | none => simp [hres]
    | some r => by_cases hr : r = "" <;> simp [hres, hr]
  | true =>
    cases herr : jstr? (lookupField ev "error") with
    | none =>
      cases hres : jstr? (lookupField ev "result") with
      | none => simp [herr, hres]
      | some r => by_cases hr : r = "" <;> simp [herr, hres, hr]
    | some e =>
      by_cases he : e = ""
      · cases hres : jstr? (lookupField ev "result") with
        | none => simp [herr, hres, he]
        | some r => by_cases hr : r = "" <;> simp [herr, hres, he, hr]
      · simp [herr, he]

theorem streamAssistant_eq (ev : List (String × JValue)) :
    StreamJSONParser.extractFromAssistant ev =
      (match jobj? (lookupField ev "message") with
       | none => ""
       | some message =>
         match jarr? (lookupField message "content") with
         | none => ""
         | some content =>
           joinLines (content.filterMap (fun c =>
             match c with
             | JValue.obj contentBlock =>
               if jstrD (lookupField contentBlock "type") = "text" then
                 match jstr? (lookupField contentBlock "text") with
                 | some text => if text ≠ "" then some text else none
                 | none => none
               else none
             | _ => none))) := by
  unfold StreamJSONParser.extractFromAssistant
  cases hm : jobj? (lookupField ev "message") with
  | none => rfl
  | some message =>
    dsimp only
    cases hc : jarr? (lookupField message "content") with
    | none => simp [hc]
    | some content =>
      simp only [hc]
      exact goStringsJoin_eq_joinLines _

theorem streamExtractLine_eq (line : String) :
    StreamJSONParser.extractFromLine line =
      (match jsonUnmarshalObject line with
       | none => ""
       | some ev => StreamJSONSpecAmended.extractEvent ev) := by
  unfold StreamJSONParser.extractFromLine StreamJSONSpecAmended.extractEvent
  cases hu : jsonUnmarshalObject line with
  | none => rfl
  | some ev =>
    by_cases ha : jstrD (lookupField ev "type") = "assistant"
    · simp only [ha, if_pos rfl]
      exact streamAssistant_eq ev
    · by_cases hr : jstrD (lookupField ev "type") = "result"
      · simp only [if_neg ha, hr, if_pos rfl]
        exact streamResult_eq ev
      · simp [ha, hr]

theorem streamLineFrag_eq (raw : String) :
    lineFrag StreamJSONParser.extractFromLine raw =
      (let line := goTrimSpace raw
       if goStartsWith line "\x7b" then
         match jsonUnmarshalObject line with
         | some event =>
           let e := StreamJSONSpecAmended.extractEvent event
           if e = "" then none else some e
         | none => none
       else none) := by
  unfold lineFrag
  by_cases hsw : goStartsWith (goTrimSpace raw) "\x7b"
  · have hne : ¬ (goTrimSpace raw = "" ∨ ¬ goStartsWith (goTrimSpace raw) "\x7b" = true) := by
      push_neg
      refine ⟨?_, hsw⟩
      intro h0
      rw [h0] at hsw
      exact absurd hsw (by decide)
    simp only [if_neg hne, if_pos hsw, streamExtractLine_eq]
    cases hu : jsonUnmarshalObject (goTrimSpace raw) with
    | none => simp
    | some ev => simp
  · have hor : (goTrimSpace raw = "" ∨ ¬ goStartsWith (goTrimSpace raw) "\x7b" = true) :=
      Or.inr hsw
    simp only [if_pos hor, if_neg hsw]

theorem lineFrag_ne_empty (extract : String → String) (r e : String)
    (h : lineFrag extract r = some e) : e ≠ "" := by
  unfold lineFrag at h
  dsimp only at h
  split at h
  · exact Option.noConfusion h
  · split at h
    · exact Option.noConfusion h
    · rename_i hne
      rw [Option.some.injEq] at h
      rw [← h]
      exact hne

theorem streamParse_eq_amended (s : String) :
    StreamJSONParser.Parse s = StreamJSONSpecAmended.Parse s := by
  unfold StreamJSONParser.Parse StreamJSONSpecAmended.Parse specJoinPipeline
  by_cases h0 : s = "" ∨ goTrimSpace s = ""
  · rw [if_pos h0, if_pos h0]
  · rw [if_neg h0, if_neg h0]
    have hfun : (fun (acc rawLine : String) =>
        let line := goTrimSpace rawLine
        if line = "" ∨ ¬ goStartsWith line "\x7b" then acc
        else
          let extracted := StreamJSONParser.extractFromLine line
          if extracted = "" then acc
          else if acc = "" then extracted
          else acc ++ "\n" ++ extracted) = optStep (lineFrag StreamJSONParser.extractFromLine) := by
      funext acc raw
      unfold optStep lineFrag
      dsimp only
      by_cases hC : (goTrimSpace raw = "" ∨ ¬ goStartsWith (goTrimSpace raw) "\x7b" = true)
      · rw [if_pos hC, if_pos hC]
      · rw [if_neg hC, if_neg hC]
        by_cases he : StreamJSONParser.extractFromLine (goTrimSpace raw) = ""
        · rw [if_pos he, if_pos he]
        · rw [if_neg he, if_neg he]
    rw [hfun]
    rw [foldl_optStep _ (fun r e h => lineFrag_ne_empty _ r e h)]
    have hF : (goSplitNewline s).filterMap (lineFrag StreamJSONParser.extractFromLine) =
        specFragments StreamJSONSpecAmended.extractEvent s := by
      unfold specFragments
      congr 1
      funext raw
      exact streamLineFrag_eq raw
    rw [hF]
    by_cases hemp : specFragments StreamJSONSpecAmended.extractEvent s = []
    · simp [hemp]
    · have hall : ∀ x ∈ specFragments StreamJSONSpecAmended.extractEvent s, x ≠ "" := by
        intro x hx
        rw [← hF] at hx
        rcases List.mem_filterMap.mp hx with ⟨r, _, hr⟩
        exact lineFrag_ne_empty _ r x hr
      have hjoin : joinLines (specFragments StreamJSONSpecAmended.extractEvent s) ≠ "" :=
        joinLines_ne_empty _ hall hemp
      simp [hemp, hjoin]

theorem auggieParse_eq_amended (s : String) :
    AuggieParser.Parse s = AuggieSpecAmended.Parse s := by
  unfold AuggieParser.Parse AuggieSpecAmended.Parse
  by_cases ht : goTrimSpace s = ""
  · have hor : (s = "" ∨ goTrimSpace s = "") := Or.inr ht
    rw [if_pos hor]
    dsimp only
    rw [if_pos ht]
  · have hor : ¬ (s = "" ∨ goTrimSpace s = "") := by
      push_neg
      refine ⟨?_, ht⟩
      intro h0
      apply ht
      rw [h0]
      rfl
    rw [if_neg hor]
    dsimp only
    rw [if_neg ht]
    by_cases hsw : goStartsWith (goTrimSpace s) "\x7b"
    · rw [if_neg (by simp [hsw]), if_neg (by simp [hsw])]
      cases hu : jsonUnmarshalObject (goTrimSpace s) with
      | none => rfl
      | some event =>
        dsimp only
        by_cases htype : jstrD (lookupField event "type") = "result"
        · cases hb : jboolD (lookupField event "is_error") with
          | false => simp [htype, hb]
          | true =>
            cases herr : jstr? (lookupField event "error") with
            | none => simp [htype, herr]
            | some e =>
              by_cases he : e = ""
              · simp [htype, herr, he]
              · simp [htype, herr, he]
        · simp [htype]
    · rw [if_pos (by simpa using hsw), if_pos (by simpa using hsw)]

theorem close_returns_nil (s : DefaultSession) : (DefaultSession.Close s).2.1 = none := by
  unfold DefaultSession.Close
  split <;> rfl

theorem close_not_started (s : DefaultSession) :
    (DefaultSession.Close s).1.started = false := by
  unfold DefaultSession.Close
  by_cases h : s.started = true
  · rw [if_neg (by simp [h])]
  · rw [if_pos h]
    cases hs : s.started with
    | false => rfl
    | true => exact absurd hs h

theorem close_of_not_started (s : DefaultSession) (h : s.started = false) :
    DefaultSession.Close s = (s, none, []) := by
  unfold DefaultSession.Close
  rw [if_pos (by simp [h])]

theorem send_not_started (s : DefaultSession) (prompt : String) (writeOk : Bool)
    (h : s.started = false) :
    DefaultSession.Send s prompt writeOk = (s, {}, some "session not started", []) := by
  unfold DefaultSession.Send
  rw [if_pos (by simp [h])]

theorem readLine_nonneg (s : DefaultSession) (line : String) (h : 0 ≤ s.contextUsage) :
    0 ≤ (DefaultSession.readLine s line).contextUsage := by
  unfold DefaultSession.readLine
  dsimp only
  split
  · rename_i hge
    exact hge
  · exact h

theorem readLines_nonneg (s : DefaultSession) (lines : List String) (h : 0 ≤ s.contextUsage) :
    0 ≤ (DefaultSession.readLines s lines).contextUsage := by
  induction lines generalizing s with
  | nil => exact h
  | cons l rest ih =>
    exact ih (DefaultSession.readLine s l) (readLine_nonneg s l h)

theorem readLine_usage_of_match (s : DefaultSession) (line : String) (ds : List Char)
    (h1 : findUsageMatch line.data = some ds) (h2 : digitsToNat ds ≤ maxGoInt) :
    (DefaultSession.readLine s line).contextUsage = mkRat (digitsToNat ds) 100 := by
  have hp : parseContextUsage line = mkRat (digitsToNat ds) 100 := by
    simp [parseContextUsage, h1, h2]
  unfold DefaultSession.readLine
  dsimp only
  rw [hp, if_pos (Rat.mkRat_nonneg (by positivity) _)]

theorem readLine_usage_of_no_match (s : DefaultSession) (line : String)
    (h : findUsageMatch line.data = none) :
    (DefaultSession.readLine s line).contextUsage = s.contextUsage := by
  have hp : parseContextUsage line = -1 := by
    simp [parseContextUsage, h]
  unfold DefaultSession.readLine
  dsimp only
  rw [hp, if_neg (by norm_num)]

theorem isConverged_iff (r : RoundResult) :
    defaultDetector.IsConverged r = true ↔
      (r.TotalChanges ≤ 0 ∧
        ∀ ar ∈ r.AgentResults, ar.Skipped = false → ar.Error = none → ar.BeadsChanged = []) := by
  unfold defaultDetector.IsConverged
  by_cases htc : r.TotalChanges > 0
  · rw [if_pos htc]
    simp only [Bool.false_eq_true, false_iff, not_and]
    intro hle
    omega
  · rw [if_neg htc]
    rw [List.all_eq_true]
    constructor
    · intro hall
      refine ⟨by omega, ?_⟩
      intro ar har hskip herr
      have := hall ar har
      rw [hskip, herr] at this
      simp at this
      exact this
    · rintro ⟨-, hall⟩
      intro ar har
      cases hskip : ar.Skipped with
      | true => simp
      | false =>
        cases herr : ar.Error with
        | some e => simp [herr]
        | none =>
          have := hall ar har hskip herr
          simp [this, herr]

theorem checkConvergence_spec (d : defaultDetector) (r : RoundResult) :
    ((defaultDetector.IsConverged r = true →
        (d.CheckConvergence r).1.consecutiveNoChange = d.consecutiveNoChange + 1) ∧
     (defaultDetector.IsConverged r = false →
        (d.CheckConvergence r).1.consecutiveNoChange = 0) ∧
     (d.CheckConvergence r).1.threshold = d.threshold ∧
     ((d.CheckConvergence r).2 = true ↔
        (d.CheckConvergence r).1.consecutiveNoChange ≥ d.threshold)) := by
  unfold defaultDetector.CheckConvergence
  by_cases hc : defaultDetector.IsConverged r = true
  · simp [hc]
  · simp [hc]

theorem setThreshold_ge_one (d : defaultDetector) (n : Int) :
    1 ≤ (d.SetThreshold n).threshold := by
  unfold defaultDetector.SetThreshold
  dsimp only
  split
  · exact le_refl 1
  · omega

theorem isConverged_of_zero (r : RoundResult) (h1 : r.TotalChanges = 0)
    (h2 : ∀ ar ∈ r.AgentResults, ar.BeadsChanged = []) :
    defaultDetector.IsConverged r = true := by
  rw [isConverged_iff]
  exact ⟨by omega, fun ar har _ _ => h2 ar har⟩

theorem runAgentTurn_spec (env : OrchEnv) (i : Nat) (ag : Agent) :
    (runAgentTurn env i ag).1.Agent = ag ∧
    (runAgentTurn env i ag).1.BeadsChanged = [] ∧
    ((runAgentTurn env i ag).1.Skipped = true ↔ ag.Authenticated = false) ∧
    ((runAgentTurn env i ag).2.2 = true → ag.Authenticated = true) := by
  unfold runAgentTurn
  by_cases h : ag.Authenticated = true
  · by_cases hm : env.hasSessionMgr = true
    · cases hc : env.createSession i with
      | some err => simp [h, hm, hc]
      | none =>
        cases hst : env.startSession i with
        | some err => simp [h, hm, hc, hst]
        | none =>
          cases hsd : env.send i with
          | mk resp serr =>
            cases serr with
            | some err => simp [h, hm, hc, hst, hsd]
            | none => simp [h, hm, hc, hst, hsd, parseBeadChanges]
    · simp [h, hm]
  · simp [h]

theorem runRoundAux_spec (env : OrchEnv) : ∀ (agents : List Agent) (i : Nat)
    (res : RoundResult) (log : List Agent),
    (runRoundAux env i agents res log).1.Round = res.Round ∧
    (runRoundAux env i agents res log).1.AgentResults.map AgentResult.Agent =
      res.AgentResults.map AgentResult.Agent ++ agents ∧
    (runRoundAux env i agents res log).1.TotalChanges = res.TotalChanges ∧
    (runRoundAux env i agents res log).1.SkippedCount =
      res.SkippedCount + ((agents.filter (fun a => !a.Authenticated)).length : Int) ∧
    ((∀ ar ∈ res.AgentResults, ar.BeadsChanged = []) →
      ∀ ar ∈ (runRoundAux env i agents res log).1.AgentResults, ar.BeadsChanged = []) ∧
    ((∀ ar ∈ res.AgentResults, ar.Agent.Authenticated = false → ar.Skipped = true) →
      ∀ ar ∈ (runRoundAux env i agents res log).1.AgentResults,
        ar.Agent.Authenticated = false → ar.Skipped = true) ∧
    ((∀ a ∈ log, a.Authenticated = true) →
      ∀ a ∈ (runRoundAux env i agents res log).2, a.Authenticated = true) := by
  intro agents
  induction agents with
  | nil =>
    intro i res log
    refine ⟨rfl, by simp [runRoundAux], rfl, by simp [runRoundAux], ?_, ?_, ?_⟩
    · intro h; exact h
    · intro h; exact h
    · intro h; exact h
  | cons ag rest ih =>
    intro i res log
    obtain ⟨hagent, hbeads, hskipiff, hcreated⟩ := runAgentTurn_spec env i ag
    show _ ∧ _ ∧ _ ∧ _ ∧ _ ∧ _ ∧ _
    rw [runRoundAux]
    obtain ⟨ihround, ihmap, ihtotal, ihskip, ihbeads, ihflag, ihlog⟩ :=
      ih (i + 1)
        { res with
          AgentResults := res.AgentResults ++ [(runAgentTurn env i ag).1]
          TotalChanges := res.TotalChanges + ((runAgentTurn env i ag).1.BeadsChanged.length : Int)
          FailedCount := res.FailedCount + (if (runAgentTurn env i ag).2.1 then 1 else 0)
          SkippedCount := res.SkippedCount + (if (runAgentTurn env i ag).1.Skipped then 1 else 0) }
        (if (runAgentTurn env i ag).2.2 then log ++ [ag] else log)
    refine ⟨?_, ?_, ?_, ?_, ?_, ?_, ?_⟩
    · rw [ihround]
    · rw [ihmap]
      simp [hagent]
    · rw [ihtotal]
      simp [hbeads]
    · rw [ihskip]
      by_cases hauth : ag.Authenticated = true
      · have hsk : (runAgentTurn env i ag).1.Skipped = false := by
          cases hs : (runAgentTurn env i ag).1.Skipped with
          | false => rfl
          | true =>
            rw [hskipiff.mp hs] at hauth
            exact Bool.noConfusion hauth
        simp [hsk, hauth]
      · have haf : ag.Authenticated = false := by
          cases ha : ag.Authenticated with
          | false => rfl
          | true => exact absurd ha hauth
        have hsk : (runAgentTurn env i ag).1.Skipped = true := hskipiff.mpr haf
        simp [hsk, haf]
        omega
    · intro hprev
      apply ihbeads
      intro ar har
      rcases List.mem_append.mp har with hin | hin
      · exact hprev ar hin
      · rw [List.mem_singleton.mp hin, hbeads]
    · intro hprev
      apply ihflag
      intro ar har
      rcases List.mem_append.mp har with hin | hin
      · exact hprev ar hin
      · rw [List.mem_singleton.mp hin]
        intro hun
        apply hskipiff.mpr
        rw [hagent] at hun
        exact hun
    · intro hprev
      apply ihlog
      intro a ha
      by_cases hcr : (runAgentTurn env i ag).2.2 = true
      · rw [if_pos hcr] at ha
        rcases List.mem_append.mp ha with hin | hin
        · exact hprev a hin
        · rw [List.mem_singleton.mp hin]
          exact hcreated hcr
      · rw [if_neg hcr] at ha
        exact hprev a ha

/-- Claim C1: every one of the six output parsers (the stream-JSON parser
shared by Claude, Cursor and Amp, plus Codex, Auggie, Gemini and the
no-op parser) is a total function of the input string; the translated
definitions are total by construction, and on the stress inputs the spec
highlights — empty or white-space-only strings, truncated JSON, and
plain non-JSON text — each parser returns the input unchanged. -/
theorem claim_C1 (s : String) (h : goTrimSpace s = "") :
    (StreamJSONParser.Parse s = s ∧ CodexParser.Parse s = s ∧ AuggieParser.Parse s = s ∧
     GeminiParser.Parse s = s ∧ NoopParser.Parse s = s) ∧
    (StreamJSONParser.Parse "\x7b\"type\":\"item\"" = "\x7b\"type\":\"item\"" ∧
     CodexParser.Parse "\x7b\"type\":\"item\"" = "\x7b\"type\":\"item\"" ∧
     AuggieParser.Parse "\x7b\"type\":\"item\"" = "\x7b\"type\":\"item\"" ∧
     GeminiParser.Parse "\x7b\"type\":\"item\"" = "\x7b\"type\":\"item\"" ∧
     NoopParser.Parse "\x7b\"type\":\"item\"" = "\x7b\"type\":\"item\"") ∧
    (StreamJSONParser.Parse "plain text, not JSON" = "plain text, not JSON" ∧
     CodexParser.Parse "plain text, not JSON" = "plain text, not JSON" ∧
     AuggieParser.Parse "plain text, not JSON" = "plain text, not JSON" ∧
     GeminiParser.Parse "plain text, not JSON" = "plain text, not JSON" ∧
     NoopParser.Parse "plain text, not JSON" = "plain text, not JSON") := by
  refine ⟨⟨?_, ?_, ?_, ?_, rfl⟩, by decide, by decide⟩
  · unfold StreamJSONParser.Parse
    rw [if_pos (Or.inr h)]
  · unfold CodexParser.Parse
    rw [if_pos (Or.inr h)]
  · unfold AuggieParser.Parse
    rw [if_pos (Or.inr h)]
  · unfold GeminiParser.Parse
    rw [if_pos (Or.inr h)]

/-- Witness for claim C1 at the white-space-only input " \n\t ". -/
theorem claim_C1_witness :
    goTrimSpace " \n\t " = "" ∧
    (StreamJSONParser.Parse " \n\t " = " \n\t " ∧ CodexParser.Parse " \n\t " = " \n\t " ∧
     AuggieParser.Parse " \n\t " = " \n\t " ∧ GeminiParser.Parse " \n\t " = " \n\t " ∧
     NoopParser.Parse " \n\t " = " \n\t ") :=
  ⟨by decide, (claim_C1 " \n\t " (by decide)).1⟩

/-- Counterexample to claim C2 as stated: on a single result event with
`is_error == true` and no `error` field, the claim's extraction rules
yield nothing, so the claimed parser returns the input unchanged, but
the code falls back to the `result` field and returns "oops". -/
theorem claim_C2_counterexample :
    StreamJSONParser.Parse "\x7b\"type\":\"result\",\"is_error\":true,\"result\":\"oops\"\x7d" =
      "oops" ∧
    StreamJSONSpec.Parse "\x7b\"type\":\"result\",\"is_error\":true,\"result\":\"oops\"\x7d" =
      "\x7b\"type\":\"result\",\"is_error\":true,\"result\":\"oops\"\x7d" ∧
    ("\x7b\"type\":\"result\",\"is_error\":true,\"result\":\"oops\"\x7d" : String) ≠ "oops" :=
  ⟨by decide, by decide, by decide⟩

/-- Claim C2 as amended: the stream-JSON parser equals the claim's line
driver with the result-event extraction corrected — the `error` field is
used only when `is_error == true` and it is a non-empty string, with a
fall-back to a non-empty `result` string; a result event without an
applicable error uses the non-empty `result` field; assistant events
contribute the newline-join of their non-empty text blocks; lines are
trimmed before the brace test; fragments join with single newlines in
input order; and the original input is returned when nothing was
extracted. -/
theorem claim_C2 (s : String) :
    StreamJSONParser.Parse s = StreamJSONSpecAmended.Parse s :=
  streamParse_eq_amended s

/-- Counterexample to claim C3 as stated: `IsConverged` demands only
`TotalChanges ≤ 0`, not `TotalChanges == 0`; a round with a negative
total is reported converged. -/
theorem claim_C3_counterexample :
    defaultDetector.IsConverged { Round := 1, TotalChanges := -1 } = true ∧
    ({ Round := 1, TotalChanges := -1 } : RoundResult).TotalChanges ≠ 0 := by
  refine ⟨by decide, by decide⟩

/-- Claim C3 as amended: `IsConverged` holds iff `TotalChanges ≤ 0` (for
the rounds the orchestrator produces, total changes are non-negative, so
this coincides with equality to zero) and every agent result that is
neither skipped nor errored has an empty `BeadsChanged` list; an empty
round is converged; `CheckConvergence` increments the streak on a
converged round, resets it to zero otherwise, leaves the threshold
unchanged, and returns true exactly when the updated streak has reached
the threshold; `SetThreshold` clamps to at least 1. -/
theorem claim_C3 :
    (∀ r : RoundResult,
      defaultDetector.IsConverged r = true ↔
        (r.TotalChanges ≤ 0 ∧
          ∀ ar ∈ r.AgentResults, ar.Skipped = false → ar.Error = none → ar.BeadsChanged = [])) ∧
    (∀ (d : defaultDetector) (r : RoundResult),
      (defaultDetector.IsConverged r = true →
        (d.CheckConvergence r).1.consecutiveNoChange = d.consecutiveNoChange + 1) ∧
      (defaultDetector.IsConverged r = false →
        (d.CheckConvergence r).1.consecutiveNoChange = 0) ∧
      (d.CheckConvergence r).1.threshold = d.threshold ∧
      ((d.CheckConvergence r).2 = true ↔
        (d.CheckConvergence r).1.consecutiveNoChange ≥ d.threshold)) ∧
    (∀ (d : defaultDetector) (n : Int), 1 ≤ (d.SetThreshold n).threshold) :=
  ⟨isConverged_iff, checkConvergence_spec, setThreshold_ge_one⟩

/-- Claim C4: `RunRound` returns one agent result per input agent, in
input order, with the round number taken from the planning context;
every unauthenticated agent's result is marked skipped and no session is
created for it (every agent for which a session object was created is
authenticated); `SkippedCount` equals the number of unauthenticated
agents; and the returned error is always nil, regardless of per-agent
failures in the environment. -/
theorem claim_C4 (env : OrchEnv) (agents : List Agent) (planCtx : PlanningContext) :
    (RunRound env agents planCtx).1.AgentResults.map AgentResult.Agent = agents ∧
    (RunRound env agents planCtx).1.Round = planCtx.Round ∧
    (∀ ar ∈ (RunRound env agents planCtx).1.AgentResults,
      ar.Agent.Authenticated = false → ar.Skipped = true) ∧
    (RunRound env agents planCtx).1.SkippedCount =
      ((agents.filter (fun a => !a.Authenticated)).length : Int) ∧
    (∀ a ∈ (RunRound env agents planCtx).2.1, a.Authenticated = true) ∧
    (RunRound env agents planCtx).2.2 = none := by
  obtain ⟨h1, h2, h3, h4, h5, h6, h7⟩ :=
    runRoundAux_spec env agents 0 { Round := planCtx.Round, AgentResults := [] } []
  refine ⟨?_, ?_, ?_, ?_, ?_, rfl⟩
  · simpa using h2
  · simpa using h1
  · exact h6 (by simp)
  · simpa using h4
  · exact h7 (by simp)

/-- Claim C5: every round produced by `RunRound` has zero total changes
and an empty `BeadsChanged` list in every agent result, because
`parseBeadChanges` returns the empty list on every input; consequently
`IsConverged` holds of every such round. -/
theorem claim_C5 (env : OrchEnv) (agents : List Agent) (planCtx : PlanningContext) :
    (RunRound env agents planCtx).1.TotalChanges = 0 ∧
    (∀ ar ∈ (RunRound env agents planCtx).1.AgentResults, ar.BeadsChanged = []) ∧
    (∀ output : String, parseBeadChanges output = []) ∧
    defaultDetector.IsConverged (RunRound env agents planCtx).1 = true := by
  obtain ⟨h1, h2, h3, h4, h5, h6, h7⟩ :=
    runRoundAux_spec env agents 0 { Round := planCtx.Round, AgentResults := [] } []
  have htotal : (RunRound env agents planCtx).1.TotalChanges = 0 := by simpa using h3
  have hbeads : ∀ ar ∈ (RunRound env agents planCtx).1.AgentResults, ar.BeadsChanged = [] :=
    h5 (by simp)
  exact ⟨htotal, hbeads, fun _ => rfl, isConverged_of_zero _ htotal hbeads⟩

/-- Claim C6: `Dispatch` returns exactly one result per session, sorted
ascending by agent name; the empty session list yields the empty result
slice; and for sessions named zebra, alpha, mango the results come back
in the order alpha, mango, zebra. -/
theorem claim_C6 (sessions : List DispatchSession) :
    (Dispatch sessions).length = sessions.length ∧
    List.Sorted dispatchLE (Dispatch sessions) ∧
    (Dispatch sessions).Perm (sessions.map mkDispatchResult) ∧
    Dispatch ([] : List DispatchSession) = [] ∧
    Dispatch [{ agent := { Name := "zebra", Authenticated := true },
                sendResponse := { Output := "r-zebra" } },
              { agent := { Name := "alpha", Authenticated := true },
                sendResponse := { Output := "r-alpha" } },
              { agent := { Name := "mango", Authenticated := true },
                sendResponse := { Output := "r-mango" } }] =
      [{ Agent := { Name := "alpha", Authenticated := true },
         Response := { Output := "r-alpha" } },
       { Agent := { Name := "mango", Authenticated := true },
         Response := { Output := "r-mango" } },
       { Agent := { Name := "zebra", Authenticated := true },
         Response := { Output := "r-zebra" } }] := by
  haveI htot : IsTotal DispatchResult dispatchLE :=
    ⟨fun a b => le_total a.Agent.Name.data b.Agent.Name.data⟩
  haveI htr : IsTrans DispatchResult dispatchLE :=
    ⟨fun _ _ _ hab hbc => le_trans hab hbc⟩
  refine ⟨?_, ?_, ?_, rfl, by decide⟩
  · unfold Dispatch
    by_cases hlen : sessions.length = 0
    · rw [if_pos hlen, hlen]
      rfl
    · rw [if_neg hlen]
      rw [(List.perm_insertionSort dispatchLE _).length_eq, List.length_map]
  · unfold Dispatch
    by_cases hlen : sessions.length = 0
    · rw [if_pos hlen]
      exact List.Pairwise.nil
    · rw [if_neg hlen]
      exact List.sorted_insertionSort dispatchLE _
  · unfold Dispatch
    by_cases hlen : sessions.length = 0
    · rw [if_pos hlen, List.length_eq_zero.mp hlen]
      rfl
    · rw [if_neg hlen]
      exact List.perm_insertionSort dispatchLE _

/-- Counterexample to claim C7 as stated: the context-usage fraction is
neither monotonic nor clamped.  Reading "50% used" then "10% used"
lowers the usage from 1/2 to 1/10, and reading "150% used" sets it to
3/2 > 1. -/
theorem claim_C7_counterexample :
    (DefaultSession.readLines
        { agent := { Name := "claude", Authenticated := true } }
        ["50% used", "10% used"]).contextUsage <
      (DefaultSession.readLines
        { agent := { Name := "claude", Authenticated := true } }
        ["50% used"]).contextUsage ∧
    (DefaultSession.readLine
        { agent := { Name := "claude", Authenticated := true } } "150% used").contextUsage > 1 :=
  ⟨by decide, by decide⟩

/-- Claim C7 as amended: within one session the usage starts at 0 and
never becomes negative; a line whose leftmost match of the
case-insensitive pattern digits-percent-space-"used" captures digits of
value n (fitting a 64-bit int) sets the usage to exactly n/100 —
unclamped, so n > 100 yields a value above 1, and a later smaller n
lowers it; a line with no match leaves the usage unchanged. -/
theorem claim_C7 (s : DefaultSession) (lines : List String) (h : 0 ≤ s.contextUsage) :
    0 ≤ (DefaultSession.readLines s lines).contextUsage ∧
    (∀ (line : String) (ds : List Char),
      findUsageMatch line.data = some ds → digitsToNat ds ≤ maxGoInt →
      (DefaultSession.readLine s line).contextUsage = mkRat (digitsToNat ds) 100) ∧
    (∀ line : String, findUsageMatch line.data = none →
      (DefaultSession.readLine s line).contextUsage = s.contextUsage) :=
  ⟨readLines_nonneg s lines h,
   fun line ds h1 h2 => readLine_usage_of_match s line ds h1 h2,
   fun line h1 => readLine_usage_of_no_match s line h1⟩

/-- Witness for claim C7 at a fresh session and the line "7% used". -/
theorem claim_C7_witness :
    (0 : Rat) ≤
      ({ agent := { Name := "claude", Authenticated := true } } : DefaultSession).contextUsage ∧
    0 ≤ (DefaultSession.readLines
      { agent := { Name := "claude", Authenticated := true } } ["7% used"]).contextUsage ∧
    (DefaultSession.readLine
      { agent := { Name := "claude", Authenticated := true } } "7% used").contextUsage =
        mkRat 7 100 := by
  refine ⟨by decide, (claim_C7 _ ["7% used"] (by decide)).1, ?_⟩
  have h := (claim_C7 { agent := { Name := "claude", Authenticated := true } } []
    (by decide)).2.1 "7% used" ['7'] (by decide) (by decide)
  exact h.trans (by decide)

/-- Claim C8: `Close` always returns a nil error, and once a session has
been closed every further `Close` returns success, leaves the state
unchanged and performs no effect (no second kill, wait, or stream
close). -/
theorem claim_C8 (s : DefaultSession) :
    (DefaultSession.Close s).2.1 = none ∧
    DefaultSession.Close (DefaultSession.Close s).1 =
      ((DefaultSession.Close s).1, none, []) :=
  ⟨close_returns_nil s, close_of_not_started _ (close_not_started s)⟩

/-- Counterexample to claim C9 as stated: on non-JSON input with
surrounding white space the code returns the input trimmed, not
unchanged. -/
theorem claim_C9_counterexample :
    AuggieParser.Parse "  plain  " = "plain" ∧
    AuggieSpec.Parse "  plain  " = "  plain  " ∧
    ("  plain  " : String) ≠ "plain" :=
  ⟨by decide, by decide, by decide⟩

/-- Claim C9 as amended: empty and white-space-only input is returned
fully unchanged; malformed JSON, non-JSON text, a non-result event, and
a result event without a string `result` field all yield the input
trimmed of surrounding white space; a result event with
`is_error == true` and a non-empty string `error` field yields that
error; otherwise a string `result` field is returned trimmed. -/
theorem claim_C9 (s : String) :
    AuggieParser.Parse s = AuggieSpecAmended.Parse s :=
  auggieParse_eq_amended s

/-- Claim C10: `Send` on a session that was never started, or on a
session after `Close`, returns the zero-value Response together with a
non-nil error, performs no effect, and leaves the session state (output
buffer, context usage, liveness) unchanged. -/
theorem claim_C10 (s : DefaultSession) (prompt : String) (writeOk : Bool)
    (h : s.started = false) :
    DefaultSession.Send s prompt writeOk = (s, {}, some "session not started", []) ∧
    DefaultSession.Send (DefaultSession.Close s).1 prompt writeOk =
      ((DefaultSession.Close s).1, {}, some "session not started", []) :=
  ⟨send_not_started s prompt writeOk h,
   send_not_started _ prompt writeOk (close_not_started s)⟩

/-- Witness for claim C10 at a fresh (never started) session. -/
theorem claim_C10_witness :
    ({ agent := { Name := "claude", Authenticated := true } } : DefaultSession).started = false ∧
    DefaultSession.Send { agent := { Name := "claude", Authenticated := true } } "hello" true =
      ({ agent := { Name := "claude", Authenticated := true } }, {},
       some "session not started", []) :=
  ⟨by decide, (claim_C10 _ "hello" true (by decide)).1⟩
